import Mathlib

/-!
Verification of the PPASR batching and streaming-inference subsystem.

Shallow embedding of:
  * `PPASRDataset.__getitem__`'s transcript-to-index conversion
    (`src/data_utils/reader.py` line 41, `src/utils/data.py` line 53),
  * `collate_fn` (`src/data_utils/reader.py` lines 50-77,
    `src/utils/data.py` lines 62-89; the two copies are identical),
  * `InferencePredictor.predict`, `predict_chunk` and `reset_stream`
    (`src/ppasr/infer_utils/inference_predictor.py`).

Conventions of the embedding:
  * numpy float32/int32 values are modelled as `Int` / `Nat`; only copying
    and zero-filling happen to them, so the value abstraction is exact.
  * a 2-D numpy array is a list of rows (`NpMat`); a 3-D array is a list of
    2-D blocks (`Arr3`); `shape[k]` is the length at depth `k`.
  * Python's `sorted(xs, key=k, reverse=True)` is a stable descending sort,
    modelled by insertion sort with the relation `k b ≤ k a`.
  * the opaque Paddle predictor (`self.predictor.run()` together with the
    input/output handles) is an explicit function argument `run`; a raised
    exception is an `Except.error`.  Mutations of `self` that happen before
    the failing `run()` persist, exactly as in Python.
-/

deriving instance DecidableEq for Except

/-- A 2-D numpy array, as a list of rows. -/
structure NpMat where
  rows : List (List Int)
deriving DecidableEq, Repr

/-- Embeds numpy `m.shape[0]` for a 2-D array: the number of rows. -/
def NpMat.shape0 (m : NpMat) : Nat := m.rows.length

/-- Embeds numpy `m.shape[1]` for a 2-D array: the common row length
(numpy arrays are rectangular; we read it off the first row). -/
def NpMat.shape1 (m : NpMat) : Nat := (m.rows.headD []).length

/-- Rectangularity: every row has length `shape1`.  True of every real numpy
array; stated explicitly because the embedding uses nested lists. -/
def NpMat.Rect (m : NpMat) : Prop := ∀ r ∈ m.rows, r.length = m.shape1

instance (m : NpMat) : Decidable m.Rect := by
  unfold NpMat.Rect; infer_instance

/-- One element of the list handed to `collate_fn`: the pair
`(feature, transcript)` returned by `PPASRDataset.__getitem__`. -/
structure Sample where
  feature : NpMat
  transcript : List Nat
deriving DecidableEq, Repr

/-! ### Transcript conversion (`PPASRDataset.__getitem__`) -/

/-- Embeds `dict([(labels[i], i) for i in range(len(labels))])`: for
duplicate characters the later (larger) index wins, as in a Python dict
built left to right. -/
def make_vocabulary (labels : List Char) : Char → Option Nat := fun c =>
  (List.range labels.length).foldl
    (fun acc i => if labels[i]? = some c then some i else acc) none

/-- Python truthiness of `vocabulary.get(x)`: `None` is falsy, and so is the
integer `0`. -/
def pyTruthy : Option Nat → Bool
  | none => false
  | some n => n != 0

/-- Embeds `list(filter(None, [self.vocabulary.get(x) for x in transcript]))`
(`src/data_utils/reader.py` line 41): map each character through the
vocabulary, then keep only the *truthy* results — `filter(None, ...)` drops
`None` and also drops the integer `0`. -/
def transcript_to_ids (vocab : Char → Option Nat) (transcript : List Char) : List Nat :=
  ((transcript.map vocab).filter pyTruthy).filterMap id

/-! ### Batch collation (`collate_fn`) -/

/-- Errors the embedded `collate_fn` can hit: the `IndexError` from
`batch[0]` on an empty batch, and the numpy broadcasting `ValueError` from
`inputs[x, :, :seq_length] = tensor[:, :]` when the row counts cannot be
broadcast together. -/
inductive CollateErr
  | indexError
  | broadcastError
deriving DecidableEq, Repr

/-- The quadruple returned by `collate_fn`. -/
structure CollateBatch where
  inputs : List (List (List Int))
  labels : List (List Nat)
  input_lens : List Nat
  label_lens : List Nat
deriving DecidableEq, Repr

/-- Embeds `sorted(batch, key=key, reverse=True)`: a stable sort putting
larger keys first (Python's `sorted` is stable; with `reverse=True`
equal-key elements keep their input order). -/
def sortByKeyDesc (key : Sample → Nat) (l : List Sample) : List Sample :=
  List.insertionSort (fun a b => key b ≤ key a) l

/-- The sort key of the first `sorted` call: `sample[0].shape[1]`. -/
def audioKey (s : Sample) : Nat := s.feature.shape1

/-- The sort key of the second `sorted` call: `len(sample[1])`. -/
def labelKey (s : Sample) : Nat := s.transcript.length

/-- Embeds the numpy assignment `inputs[x, :, :seq_length] = tensor[:, :]`
along the row axis: the target has `freq_size` rows, the source `t.rows`;
numpy broadcasting accepts an equal row count, or a single source row that
is repeated across all `freq_size` target rows, and raises otherwise. -/
def npBroadcastRows (freq_size : Nat) (t : List (List Int)) : Except CollateErr (List (List Int)) :=
  if t.length = freq_size then .ok t
  else if t.length = 1 then .ok (List.replicate freq_size (t.headD []))
  else .error .broadcastError

/-- One padded row of `inputs`: the first `seq` entries of the source row,
then zeros up to `max_len` (the row is written into a zero-initialized
buffer of width `max_len`). -/
def padRowTo (seq max_len : Nat) (r : List Int) : List Int :=
  r.take seq ++ List.replicate (max_len - seq) 0

/-- The full `inputs[x]` block for one sample: broadcast the feature rows
against `freq_size`, then pad each row from the sample's own
`seq_length = tensor.shape[1]` out to `max_audio_length`. -/
def inputBlock (freq_size max_audio : Nat) (s : Sample) : Except CollateErr (List (List Int)) :=
  Except.map (fun rows => rows.map (padRowTo s.feature.shape1 max_audio))
    (npBroadcastRows freq_size s.feature.rows)

/-- One row of `labels`: the transcript, then zeros up to
`max_label_length`. -/
def labelRow (max_label : Nat) (s : Sample) : List Nat :=
  s.transcript ++ List.replicate (max_label - s.transcript.length) 0

/-- Sequential loop bodies that can raise: the first error aborts the whole
computation, as a raised exception does in the Python `for` loop. -/
def mapOrErr (f : α → Except ε β) : List α → Except ε (List β)
  | [] => .ok []
  | a :: l =>
    match f a with
    | .error e => .error e
    | .ok b =>
      match mapOrErr f l with
      | .error e => .error e
      | .ok bs => .ok (b :: bs)

/-- Embeds `collate_fn` (`src/data_utils/reader.py` lines 50-77).  The
batch is re-bound to its audio-length-descending sort; `freq_size` and
`max_audio_length` come from `batch[0]` of that sort, `max_label_length`
from `batch_temp[0]` of the label-length-descending sort of the re-bound
batch; the loop then fills the zero tensors in the *sorted* order. -/
def collate_fn (batch : List Sample) : Except CollateErr CollateBatch :=
  match sortByKeyDesc audioKey batch, sortByKeyDesc labelKey (sortByKeyDesc audioKey batch) with
  | [], _ => .error .indexError
  | _ :: _, [] => .error .indexError
  | b0 :: _, t0 :: _ =>
    match mapOrErr (inputBlock b0.feature.shape0 b0.feature.shape1) (sortByKeyDesc audioKey batch) with
    | .error e => .error e
    | .ok inputs =>
      .ok { inputs := inputs
            labels := (sortByKeyDesc audioKey batch).map (labelRow t0.transcript.length)
            input_lens := (sortByKeyDesc audioKey batch).map (fun s => s.feature.shape1)
            label_lens := (sortByKeyDesc audioKey batch).map (fun s => s.transcript.length) }

/-- The `freq_size` that `collate_fn` reads off `batch[0][0].shape[0]` after
the audio sort (0 on an empty batch, where the real code raises instead). -/
def collate_freq_size (batch : List Sample) : Nat :=
  match sortByKeyDesc audioKey batch with
  | [] => 0
  | b0 :: _ => b0.feature.shape0

/-! ### Streaming inference session (`InferencePredictor`) -/

/-- A 3-D numpy array as a list of 2-D blocks: `shape[0]` is the outer
length. -/
abbrev Arr3 := List (List (List Int))

/-- Embeds `np.zeros(shape=(a, b, c), dtype=np.float32)`. -/
def np_zeros3 (a b c : Nat) : Arr3 :=
  List.replicate a (List.replicate b (List.replicate c (0 : Int)))

/-- The fields of `configs.encoder_conf` that `InferencePredictor` reads. -/
structure EncoderConf where
  num_rnn_layers : Nat
  rnn_size : Nat
deriving DecidableEq, Repr

/-- The `configs` object handed to the constructor. -/
structure Configs where
  encoder_conf : EncoderConf
deriving DecidableEq, Repr

/-- The value of `use_model` that selects the streaming branch. -/
def ds2online : String := "deepspeech2_online"

/-- The mutable fields of an `InferencePredictor` that the claims are
about: `use_model` and `configs` are set once in `__init__`;
`output_state_h`/`output_state_c` start as `None`. -/
structure InferencePredictor where
  use_model : String
  configs : Configs
  output_state_h : Option Arr3 := none
  output_state_c : Option Arr3 := none
deriving DecidableEq, Repr

/-- Outputs of one `self.predictor.run()` as read back through
`output_names[0..3]`: chunk probabilities, output lengths, and the two new
recurrent-state tensors. -/
structure RunOut where
  probs : Arr3
  lens : List Int
  state_h : Arr3
  state_c : Arr3
deriving DecidableEq, Repr

/-- The one failure mode of the opaque predictor: `run()` raises. -/
inductive ModelErr
  | invocation
deriving DecidableEq, Repr

/-- The opaque Paddle predictor: it sees the speech tensor, the lengths
tensor and — iff the streaming branch copied them into the
`init_state_*_box` handles — the recurrent-state pair. -/
abbrev ModelRun := Arr3 → List Int → Option (Arr3 × Arr3) → Except ModelErr RunOut

/-- The lazy zero-initialization at the top of `predict_chunk`: if the
model is `deepspeech2_online` and `self.output_state_h is None`, both state
fields are set to `np.zeros((num_rnn_layers, x_chunk.shape[0], rnn_size))`.
This assignment to `self` happens *before* `self.predictor.run()`. -/
def lazy_init (s : InferencePredictor) (x_chunk : Arr3) : InferencePredictor :=
  if s.use_model = ds2online ∧ s.output_state_h = none then
    { s with
      output_state_h := some (np_zeros3 s.configs.encoder_conf.num_rnn_layers
        x_chunk.length s.configs.encoder_conf.rnn_size)
      output_state_c := some (np_zeros3 s.configs.encoder_conf.num_rnn_layers
        x_chunk.length s.configs.encoder_conf.rnn_size) }
  else s

/-- What `predict_chunk` copies into the `init_state_*_box` handles: the
held state pair when the model is streaming (at that point the fields are
always set), nothing otherwise. -/
def chunk_state_input (s : InferencePredictor) : Option (Arr3 × Arr3) :=
  if s.use_model = ds2online then
    some (s.output_state_h.getD [], s.output_state_c.getD [])
  else none

/-- Embeds `InferencePredictor.predict_chunk`
(`src/ppasr/infer_utils/inference_predictor.py` lines 98-131): lazily
zero-initialize the held state, copy chunk, lengths and (for a streaming
model) the held state to the input handles, run the predictor, then
overwrite both state fields with outputs 2 and 3 and return outputs 0 and 1.
If `run()` raises, the exception propagates but the mutations already made
to `self` (the lazy zero-initialization) persist, so the pair returned here
is the session as the failed call leaves it together with the error. -/
def predict_chunk (run : ModelRun) (s : InferencePredictor) (x_chunk : Arr3)
    (x_chunk_lens : List Int) : InferencePredictor × Except ModelErr (Arr3 × List Int) :=
  let s1 := lazy_init s x_chunk
  match run x_chunk x_chunk_lens (chunk_state_input s1) with
  | .error e => (s1, .error e)
  | .ok out =>
    ({ s1 with output_state_h := some out.state_h, output_state_c := some out.state_c },
      .ok (out.probs, out.lens))

/-- Embeds `InferencePredictor.predict` (lines 67-96): copy speech and
lengths to the handles; for a streaming model build a *local*
`init_state_h_box` of zeros `(num_rnn_layers, speech.shape[0], rnn_size)`
and copy it to both state handles; run; return output 0.  No field of
`self` holding streaming state is assigned. -/
def predict (run : ModelRun) (s : InferencePredictor) (speech : Arr3)
    (speech_lengths : List Int) : InferencePredictor × Except ModelErr Arr3 :=
  let init_state :=
    if s.use_model = ds2online then
      some (np_zeros3 s.configs.encoder_conf.num_rnn_layers speech.length
              s.configs.encoder_conf.rnn_size,
            np_zeros3 s.configs.encoder_conf.num_rnn_layers speech.length
              s.configs.encoder_conf.rnn_size)
    else none
  match run speech speech_lengths init_state with
  | .error e => (s, .error e)
  | .ok out => (s, .ok out.probs)

/-- Embeds `InferencePredictor.reset_stream` (lines 134-136): set both
state fields to `None`, unconditionally. -/
def reset_stream (s : InferencePredictor) : InferencePredictor :=
  { s with output_state_h := none, output_state_c := none }

/-! ### Helper lemmas -/

/-- The `max_audio_length` read off `batch[0][0].shape[1]` after the audio
sort. -/
def collate_max_audio (batch : List Sample) : Nat :=
  match sortByKeyDesc audioKey batch with
  | [] => 0
  | b0 :: _ => b0.feature.shape1

/-- The `max_label_length` read off `len(batch_temp[0][1])`. -/
def collate_max_label (batch : List Sample) : Nat :=
  match sortByKeyDesc labelKey (sortByKeyDesc audioKey batch) with
  | [] => 0
  | t0 :: _ => t0.transcript.length

theorem sortByKeyDesc_perm (key : Sample → Nat) (l : List Sample) :
    (sortByKeyDesc key l).Perm l :=
  List.perm_insertionSort _ l

theorem sortByKeyDesc_sorted (key : Sample → Nat) (l : List Sample) :
    List.Sorted (fun a b => key b ≤ key a) (sortByKeyDesc key l) := by
  haveI : IsTotal Sample (fun a b => key b ≤ key a) := ⟨fun a b => Nat.le_total (key b) (key a)⟩
  haveI : IsTrans Sample (fun a b => key b ≤ key a) :=
    ⟨fun _ _ _ hab hbc => le_trans hbc hab⟩
  exact List.sorted_insertionSort _ l

theorem sortByKeyDesc_ne_nil (key : Sample → Nat) (l : List Sample) (h : l ≠ []) :
    sortByKeyDesc key l ≠ [] := by
  intro h0
  have hp := sortByKeyDesc_perm key l
  rw [h0] at hp
  exact h hp.symm.eq_nil

theorem mapOrErr_eq_ok_map (f : α → Except ε β) (g : α → β) (l : List α)
    (h : ∀ a ∈ l, f a = .ok (g a)) : mapOrErr f l = .ok (l.map g) := by
  induction l with
  | nil => rfl
  | cons a l ih =>
    have ha := h a (by simp)
    have hl := ih (fun b hb => h b (by simp [hb]))
    simp [mapOrErr, ha, hl]

theorem mapOrErr_ne_error (f : α → Except ε β) (e : ε) (l : List α)
    (h : ∀ a ∈ l, f a ≠ .error e) : mapOrErr f l ≠ .error e := by
  induction l with
  | nil => simp [mapOrErr]
  | cons a l ih =>
    have ha := h a (by simp)
    have hl := ih (fun b hb => h b (by simp [hb]))
    cases hfa : f a with
    | error e' =>
      simp only [mapOrErr, hfa]
      exact fun hc => ha (by rw [hfa, Except.error.inj hc])
    | ok b =>
      cases hml : mapOrErr f l with
      | error e' =>
        simp only [mapOrErr, hfa, hml]
        exact fun hc => hl (hml.trans hc)
      | ok bs => simp [mapOrErr, hfa, hml]

theorem mapOrErr_isError (f : α → Except ε β) {l : List α} {a : α} {e : ε}
    (ha : a ∈ l) (hf : f a = .error e) : ∃ e', mapOrErr f l = .error e' := by
  induction l with
  | nil => cases ha
  | cons b l ih =>
    rcases List.mem_cons.mp ha with rfl | ha'
    · exact ⟨e, by simp [mapOrErr, hf]⟩
    · cases hfb : f b with
      | error e' => exact ⟨e', by simp [mapOrErr, hfb]⟩
      | ok v =>
        obtain ⟨e', he'⟩ := ih ha'
        exact ⟨e', by simp [mapOrErr, hfb, he']⟩

theorem mapOrErr_ok_forall2 (f : α → Except ε β) :
    ∀ (l : List α) (bs : List β), mapOrErr f l = .ok bs →
      List.Forall₂ (fun a b => f a = .ok b) l bs := by
  intro l
  induction l with
  | nil =>
    intro bs h
    simp only [mapOrErr] at h
    cases h
    exact .nil
  | cons a l ih =>
    intro bs h
    cases hfa : f a with
    | error e => simp [mapOrErr, hfa] at h
    | ok b =>
      cases hml : mapOrErr f l with
      | error e => simp [mapOrErr, hfa, hml] at h
      | ok bs' =>
        simp only [mapOrErr, hfa, hml] at h
        cases h
        exact .cons hfa (ih bs' hml)

theorem forall2_zip_map {β γ : Type} {R : Sample → β → Prop} (g : Sample → γ) :
    ∀ {l : List Sample} {bs : List β}, List.Forall₂ R l bs →
      ∀ p ∈ bs.zip (l.map g), ∃ a ∈ l, R a p.1 ∧ p.2 = g a := by
  intro l bs h
  induction h with
  | nil => intro p hp; cases hp
  | @cons a b l' bs' hR hF ih =>
    intro p hp
    rw [List.map_cons, List.zip_cons_cons] at hp
    rcases List.mem_cons.mp hp with rfl | hp'
    · exact ⟨a, by simp, hR, rfl⟩
    · obtain ⟨a', ha', hRa, hpa⟩ := ih p hp'
      exact ⟨a', by simp [ha'], hRa, hpa⟩

theorem inputBlock_ok_of_eqF (freq max_audio : Nat) (s : Sample)
    (h : s.feature.shape0 = freq) :
    inputBlock freq max_audio s =
      .ok (s.feature.rows.map (padRowTo s.feature.shape1 max_audio)) := by
  unfold inputBlock npBroadcastRows
  rw [if_pos (show s.feature.rows.length = freq from h)]
  rfl

theorem inputBlock_ne_indexError (freq max_audio : Nat) (s : Sample) :
    inputBlock freq max_audio s ≠ .error .indexError := by
  unfold inputBlock npBroadcastRows
  split
  · exact fun h => by cases h
  · split
    · exact fun h => by cases h
    · exact fun h => by cases (Except.error.inj h)

theorem inputBlock_error_of_badF (freq max_audio : Nat) (s : Sample)
    (h1 : s.feature.shape0 ≠ freq) (h2 : s.feature.shape0 ≠ 1) :
    inputBlock freq max_audio s = .error .broadcastError := by
  unfold inputBlock npBroadcastRows
  rw [if_neg (show ¬s.feature.rows.length = freq from h1),
    if_neg (show ¬s.feature.rows.length = 1 from h2)]
  rfl

theorem collate_fn_eq_of_cons (batch : List Sample) (b0 t0 : Sample) (r1 r2 : List Sample)
    (hS : sortByKeyDesc audioKey batch = b0 :: r1)
    (hT : sortByKeyDesc labelKey (b0 :: r1) = t0 :: r2) :
    collate_fn batch =
      match mapOrErr (inputBlock b0.feature.shape0 b0.feature.shape1) (b0 :: r1) with
      | .error e => .error e
      | .ok inputs =>
        .ok { inputs := inputs
              labels := (b0 :: r1).map (labelRow t0.transcript.length)
              input_lens := (b0 :: r1).map (fun s => s.feature.shape1)
              label_lens := (b0 :: r1).map (fun s => s.transcript.length) } := by
  unfold collate_fn
  rw [hS, hT]

theorem collate_freq_size_eq (batch : List Sample) (b0 : Sample) (r1 : List Sample)
    (hS : sortByKeyDesc audioKey batch = b0 :: r1) :
    collate_freq_size batch = b0.feature.shape0 := by
  unfold collate_freq_size
  rw [hS]

theorem collate_max_audio_eq (batch : List Sample) (b0 : Sample) (r1 : List Sample)
    (hS : sortByKeyDesc audioKey batch = b0 :: r1) :
    collate_max_audio batch = b0.feature.shape1 := by
  unfold collate_max_audio
  rw [hS]

theorem collate_max_label_eq (batch : List Sample) (b0 t0 : Sample) (r1 r2 : List Sample)
    (hS : sortByKeyDesc audioKey batch = b0 :: r1)
    (hT : sortByKeyDesc labelKey (b0 :: r1) = t0 :: r2) :
    collate_max_label batch = t0.transcript.length := by
  unfold collate_max_label
  rw [hS, hT]

theorem collate_fn_ok_of_sameF (batch : List Sample) (hne : batch ≠ [])
    (hF : ∀ s ∈ batch, s.feature.shape0 = collate_freq_size batch) :
    collate_fn batch =
      .ok { inputs := (sortByKeyDesc audioKey batch).map
              (fun s => s.feature.rows.map (padRowTo s.feature.shape1 (collate_max_audio batch)))
            labels := (sortByKeyDesc audioKey batch).map (labelRow (collate_max_label batch))
            input_lens := (sortByKeyDesc audioKey batch).map (fun s => s.feature.shape1)
            label_lens := (sortByKeyDesc audioKey batch).map (fun s => s.transcript.length) } := by
  obtain ⟨b0, r1, hS⟩ := List.exists_cons_of_ne_nil (sortByKeyDesc_ne_nil audioKey batch hne)
  obtain ⟨t0, r2, hT⟩ := List.exists_cons_of_ne_nil
    (sortByKeyDesc_ne_nil labelKey (b0 :: r1) (by simp))
  have hmap : mapOrErr (inputBlock b0.feature.shape0 b0.feature.shape1) (b0 :: r1) =
      .ok ((b0 :: r1).map
        (fun s => s.feature.rows.map (padRowTo s.feature.shape1 b0.feature.shape1))) := by
    apply mapOrErr_eq_ok_map
    intro a ha
    apply inputBlock_ok_of_eqF
    have ha' : a ∈ batch := (sortByKeyDesc_perm audioKey batch).subset (hS ▸ ha)
    have hb0 : b0 ∈ batch := (sortByKeyDesc_perm audioKey batch).subset (hS ▸ List.mem_cons_self b0 r1)
    rw [hF a ha', collate_freq_size_eq batch b0 r1 hS]
  rw [collate_fn_eq_of_cons batch b0 t0 r1 r2 hS hT, hmap,
    collate_max_audio_eq batch b0 r1 hS, collate_max_label_eq batch b0 t0 r1 r2 hS hT, hS]

/-! ### Concrete inputs used in counterexamples and witnesses -/

/-- A sample with feature shape `(1, 1)` and one label. -/
def cs0 : Sample := ⟨⟨[[5]]⟩, [1]⟩

/-- A sample with feature shape `(1, 2)` and two labels: longer than `cs0`,
so the descending audio sort puts it first. -/
def cs1 : Sample := ⟨⟨[[7, 8]]⟩, [2, 3]⟩

/-- A sample with feature shape `(2, 2)`. -/
def sA : Sample := ⟨⟨[[1, 2], [3, 4]]⟩, []⟩

/-- A sample with feature shape `(1, 1)`: its single row broadcasts against
any `freq_size`. -/
def sB : Sample := ⟨⟨[[9]]⟩, []⟩

/-- A sample with feature shape `(2, 2)`. -/
def sC : Sample := ⟨⟨[[1, 2], [3, 4]]⟩, [1]⟩

/-- A sample with feature shape `(3, 2)`: three rows cannot broadcast into
two. -/
def sD : Sample := ⟨⟨[[9, 9], [9, 9], [9, 9]]⟩, [1]⟩

/-! ### Claim theorems -/

/-- C1, counterexample.  The claim says entry `i` of `input_lens` holds the
true length of the `i`-th *input* sample.  On `[cs0, cs1]` (lengths 1 then
2) `collate_fn` returns `input_lens = [2, 1]`, because the batch is
re-sorted by descending audio length before the rows are filled. -/
theorem collate_fn_input_order_counterexample :
    Except.map CollateBatch.input_lens (collate_fn [cs0, cs1]) ≠
      .ok [cs0.feature.shape1, cs1.feature.shape1] := by decide

/-- C1, amended.  For a non-empty batch whose samples share one feature
dimensionality, `collate_fn` succeeds and lists the samples in the order of
the stable descending sort by audio length — a permutation of the input
list (nothing lost or duplicated), with row `i` of `inputs`/`labels` and
entries `i` of `input_lens`/`label_lens` all describing the `i`-th sample
of that *sorted* order, whose lengths are non-increasing. -/
theorem collate_fn_sorted_order_perm (batch : List Sample) (hne : batch ≠ [])
    (hF : ∀ s ∈ batch, ∀ t ∈ batch, s.feature.shape0 = t.feature.shape0) :
    ∃ B, collate_fn batch = .ok B ∧
      (sortByKeyDesc audioKey batch).Perm batch ∧
      B.input_lens = (sortByKeyDesc audioKey batch).map (fun s => s.feature.shape1) ∧
      B.label_lens = (sortByKeyDesc audioKey batch).map (fun s => s.transcript.length) ∧
      B.labels = (sortByKeyDesc audioKey batch).map (labelRow (collate_max_label batch)) ∧
      B.inputs = (sortByKeyDesc audioKey batch).map
        (fun s => s.feature.rows.map (padRowTo s.feature.shape1 (collate_max_audio batch))) ∧
      B.input_lens.Pairwise (fun a b => b ≤ a) := by
  obtain ⟨b0, r1, hS⟩ := List.exists_cons_of_ne_nil (sortByKeyDesc_ne_nil audioKey batch hne)
  have hb0 : b0 ∈ batch := (sortByKeyDesc_perm audioKey batch).subset (hS ▸ List.mem_cons_self b0 r1)
  have hok := collate_fn_ok_of_sameF batch hne (fun s hs => by
    rw [collate_freq_size_eq batch b0 r1 hS]; exact hF s hs b0 hb0)
  refine ⟨_, hok, sortByKeyDesc_perm audioKey batch, rfl, rfl, rfl, rfl, ?_⟩
  have hsorted := sortByKeyDesc_sorted audioKey batch
  exact List.Pairwise.map _ (fun a b h => h) hsorted

/-- C1, witness: the amended theorem applied to the concrete batch
`[cs0, cs1]`. -/
theorem collate_fn_sorted_order_perm_witness :
    ∃ B, collate_fn [cs0, cs1] = .ok B ∧
      (sortByKeyDesc audioKey [cs0, cs1]).Perm [cs0, cs1] ∧
      B.input_lens = (sortByKeyDesc audioKey [cs0, cs1]).map (fun s => s.feature.shape1) ∧
      B.label_lens = (sortByKeyDesc audioKey [cs0, cs1]).map (fun s => s.transcript.length) ∧
      B.labels = (sortByKeyDesc audioKey [cs0, cs1]).map (labelRow (collate_max_label [cs0, cs1])) ∧
      B.inputs = (sortByKeyDesc audioKey [cs0, cs1]).map
        (fun s => s.feature.rows.map (padRowTo s.feature.shape1 (collate_max_audio [cs0, cs1]))) ∧
      B.input_lens.Pairwise (fun a b => b ≤ a) :=
  collate_fn_sorted_order_perm [cs0, cs1] (by decide) (by decide)

/-- C2: the transcript-to-index conversion is
`list(filter(None, [vocabulary.get(x) for x in transcript]))`, and Python's
`filter(None, ...)` drops every *falsy* element — the integer `0` as well
as `None`.  Under the vocabulary built from `['h','e','l','o']` (so `h ↦ 0`)
the transcript `"hello"` yields `[1, 2, 2, 3]`, not the `[0, 1, 2, 2, 3]`
the spec states, and `"hi"` yields `[]`, not `[0]`, even though `'h'` is in
the vocabulary with index 0. -/
theorem transcript_to_ids_drops_index_zero :
    make_vocabulary ['h', 'e', 'l', 'o'] 'h' = some 0 ∧
    transcript_to_ids (make_vocabulary ['h', 'e', 'l', 'o']) "hello".toList = [1, 2, 2, 3] ∧
    transcript_to_ids (make_vocabulary ['h', 'e', 'l', 'o']) "hi".toList = [] := by decide

/-- C4: in every batch `collate_fn` returns, the padded region is exactly
zero: pairing row `i` with length entry `i`, everything of an `inputs` row
beyond `input_lens[i]` and everything of a `labels` row beyond
`label_lens[i]` is `0`.  (Features are rectangular numpy arrays, which the
hypothesis `hrect` records.) -/
theorem collate_fn_padding_zero (batch : List Sample) (B : CollateBatch)
    (hok : collate_fn batch = .ok B)
    (hrect : ∀ s ∈ batch, s.feature.Rect) :
    (∀ p ∈ B.inputs.zip B.input_lens, ∀ r ∈ p.1, ∀ z ∈ r.drop p.2, z = 0) ∧
    (∀ q ∈ B.labels.zip B.label_lens, ∀ z ∈ q.1.drop q.2, z = 0) := by
  by_cases hne : batch = []
  · subst hne
    have h0 : collate_fn [] = (.error .indexError : Except CollateErr CollateBatch) := rfl
    rw [h0] at hok
    cases hok
  obtain ⟨b0, r1, hS⟩ := List.exists_cons_of_ne_nil (sortByKeyDesc_ne_nil audioKey batch hne)
  obtain ⟨t0, r2, hT⟩ := List.exists_cons_of_ne_nil
    (sortByKeyDesc_ne_nil labelKey (b0 :: r1) (by simp))
  rw [collate_fn_eq_of_cons batch b0 t0 r1 r2 hS hT] at hok
  cases hmap : mapOrErr (inputBlock b0.feature.shape0 b0.feature.shape1) (b0 :: r1) with
  | error e => rw [hmap] at hok; cases hok
  | ok inputs =>
    rw [hmap] at hok
    cases hok
    constructor
    · have hF2 := mapOrErr_ok_forall2 _ _ _ hmap
      intro p hp r hr z hz
      have hp' : p ∈ inputs.zip ((b0 :: r1).map (fun s => s.feature.shape1)) := hp
      obtain ⟨a, ha, hRa, hp2⟩ := forall2_zip_map _ hF2 p hp'
      unfold inputBlock at hRa
      cases hbr : npBroadcastRows b0.feature.shape0 a.feature.rows with
      | error e => rw [hbr] at hRa; cases hRa
      | ok rows' =>
        rw [hbr] at hRa
        have hp1 : p.1 = rows'.map (padRowTo a.feature.shape1 b0.feature.shape1) :=
          (Except.ok.inj hRa).symm
        have harect : a.feature.Rect :=
          hrect a ((sortByKeyDesc_perm audioKey batch).subset (hS ▸ ha))
        have hlen : ∀ r' ∈ rows', r'.length = a.feature.shape1 := by
          unfold npBroadcastRows at hbr
          split at hbr
          · cases hbr
            exact fun r' hr' => harect r' hr'
          · split at hbr
            · cases hbr
              next h1 h2 =>
                obtain ⟨x, hx⟩ := List.length_eq_one.mp h2
                intro r' hr'
                have hr'x := List.eq_of_mem_replicate hr'
                subst hr'x
                rw [hx]
                exact harect x (by rw [hx]; exact List.mem_singleton_self x)
            · cases hbr
        rw [hp1] at hr
        obtain ⟨r0, hr0, hr0eq⟩ := List.mem_map.mp hr
        subst hr0eq
        rw [hp2] at hz
        unfold padRowTo at hz
        rw [← hlen r0 hr0, List.take_length, List.drop_left] at hz
        exact List.eq_of_mem_replicate hz
    · intro q hq z hz
      have hq' : q ∈ (List.map (labelRow t0.transcript.length) (b0 :: r1)).zip
          (List.map (fun s => s.transcript.length) (b0 :: r1)) := hq
      have hzip : (List.map (labelRow t0.transcript.length) (b0 :: r1)).zip
          (List.map (fun s => s.transcript.length) (b0 :: r1)) =
          (b0 :: r1).map (fun a => (labelRow t0.transcript.length a, a.transcript.length)) :=
        List.zip_map' _ _ _
      rw [hzip] at hq'
      obtain ⟨a, ha, haq⟩ := List.mem_map.mp hq'
      subst haq
      unfold labelRow at hz
      rw [List.drop_left] at hz
      exact List.eq_of_mem_replicate hz

/-- C4, witness: the collated batch of `[cs0, cs1]`, evaluated, together
with the padding-zero property the theorem yields for it. -/
theorem collate_fn_padding_zero_witness :
    collate_fn [cs0, cs1] =
      .ok ⟨[[[7, 8]], [[5, 0]]], [[2, 3], [1, 0]], [2, 1], [2, 1]⟩ ∧
    (∀ p ∈ ([[[7, 8]], [[5, 0]]] : List (List (List Int))).zip [2, 1],
      ∀ r ∈ p.1, ∀ z ∈ r.drop p.2, z = 0) :=
  ⟨by decide,
    (collate_fn_padding_zero [cs0, cs1]
      ⟨[[[7, 8]], [[5, 0]]], [[2, 3], [1, 0]], [2, 1], [2, 1]⟩
      (by decide) (by decide)).1⟩

/-- C7, counterexample.  The claim says `collate_fn` fails *whenever* the
feature dimensionality differs across samples.  `sA` has `F = 2` and `sB`
has `F = 1`, yet collation succeeds: numpy broadcasting silently stretches
the single row of `sB` across both target rows instead of raising. -/
theorem collate_fn_feature_dim_counterexample :
    sA.feature.shape0 ≠ sB.feature.shape0 ∧
    collate_fn [sA, sB] =
      .ok ⟨[[[1, 2], [3, 4]], [[9, 0], [9, 0]]], [[], []], [2, 1], [0, 0]⟩ := by decide

/-- C7, amended.  For a non-empty batch: if all samples share one feature
dimensionality, `collate_fn` raises no error; if some sample's row count
differs from the reference `freq_size` (the `F` of the longest sample) and
is not `1`, the per-sample copy raises a broadcasting shape error.  A
sample whose `F` is `1` in a batch with larger `freq_size` is *not*
rejected — its row is broadcast silently. -/
theorem collate_fn_feature_dim_check (batch : List Sample) (hne : batch ≠ []) :
    ((∀ s ∈ batch, ∀ t ∈ batch, s.feature.shape0 = t.feature.shape0) →
      ∃ B, collate_fn batch = .ok B) ∧
    ((∃ s ∈ batch, s.feature.shape0 ≠ collate_freq_size batch ∧ s.feature.shape0 ≠ 1) →
      collate_fn batch = .error .broadcastError) := by
  obtain ⟨b0, r1, hS⟩ := List.exists_cons_of_ne_nil (sortByKeyDesc_ne_nil audioKey batch hne)
  have hb0 : b0 ∈ batch :=
    (sortByKeyDesc_perm audioKey batch).subset (hS ▸ List.mem_cons_self b0 r1)
  constructor
  · intro hF
    exact ⟨_, collate_fn_ok_of_sameF batch hne (fun s hs => by
      rw [collate_freq_size_eq batch b0 r1 hS]; exact hF s hs b0 hb0)⟩
  · rintro ⟨s, hs, h1, h2⟩
    have hs' : s ∈ sortByKeyDesc audioKey batch :=
      ((sortByKeyDesc_perm audioKey batch).mem_iff).mpr hs
    rw [hS] at hs'
    have herr : inputBlock b0.feature.shape0 b0.feature.shape1 s = .error .broadcastError :=
      inputBlock_error_of_badF _ _ s
        (by rwa [collate_freq_size_eq batch b0 r1 hS] at h1) h2
    obtain ⟨t0, r2, hT⟩ := List.exists_cons_of_ne_nil
      (sortByKeyDesc_ne_nil labelKey (b0 :: r1) (by simp))
    rw [collate_fn_eq_of_cons batch b0 t0 r1 r2 hS hT]
    obtain ⟨e', he'⟩ := mapOrErr_isError _ hs' herr
    have hne' : e' = CollateErr.broadcastError := by
      have hni := mapOrErr_ne_error (inputBlock b0.feature.shape0 b0.feature.shape1)
        .indexError (b0 :: r1) (fun a _ => inputBlock_ne_indexError _ _ a)
      cases e' with
      | indexError => exact absurd he' hni
      | broadcastError => rfl
    rw [he', hne']

/-- C7, witness: a same-`F` batch collates without error, and a batch whose
second sample has `F = 3` against `freq_size = 2` fails with the
broadcasting shape error. -/
theorem collate_fn_feature_dim_check_witness :
    (collate_fn [cs0, cs1]).isOk = true ∧
    collate_fn [sC, sD] = .error .broadcastError := by
  have h1 := (collate_fn_feature_dim_check [cs0, cs1] (by decide)).1 (by decide)
  have h2 := (collate_fn_feature_dim_check [sC, sD] (by decide)).2
    ⟨sD, by decide, by decide, by decide⟩
  refine ⟨?_, h2⟩
  obtain ⟨B, hB⟩ := h1
  rw [hB]
  rfl

/-- C10: `collate_fn` needs a non-empty batch: on `[]` the very first
access `batch[0]` after sorting raises the index error, while on any
non-empty batch no internal indexing is out of bounds — the only error
still reachable is the broadcasting error of the per-sample copy, never
the index error. -/
theorem collate_fn_nonempty_no_indexError (batch : List Sample) :
    collate_fn [] = (.error .indexError : Except CollateErr CollateBatch) ∧
    (batch ≠ [] → collate_fn batch ≠ .error .indexError) := by
  refine ⟨rfl, fun hne => ?_⟩
  obtain ⟨b0, r1, hS⟩ := List.exists_cons_of_ne_nil (sortByKeyDesc_ne_nil audioKey batch hne)
  obtain ⟨t0, r2, hT⟩ := List.exists_cons_of_ne_nil
    (sortByKeyDesc_ne_nil labelKey (b0 :: r1) (by simp))
  rw [collate_fn_eq_of_cons batch b0 t0 r1 r2 hS hT]
  cases hm : mapOrErr (inputBlock b0.feature.shape0 b0.feature.shape1) (b0 :: r1) with
  | error e =>
    have he : e ≠ CollateErr.indexError := fun h =>
      (mapOrErr_ne_error _ .indexError _ (fun a _ => inputBlock_ne_indexError _ _ a)) (h ▸ hm)
    intro hc
    exact he (Except.error.inj hc)
  | ok inputs =>
    intro hc
    cases hc

/-- C10, witness: the non-emptiness implication applied to the singleton
batch `[cs0]`. -/
theorem collate_fn_nonempty_no_indexError_witness :
    ([cs0] ≠ ([] : List Sample)) ∧ collate_fn [cs0] ≠ .error .indexError :=
  ⟨by decide, (collate_fn_nonempty_no_indexError [cs0]).2 (by decide)⟩

/-! ### Session fixtures -/

/-- A freshly constructed streaming session: `deepspeech2_online`, one RNN
layer of hidden size one, no state held. -/
def sess5 : InferencePredictor := { use_model := ds2online, configs := ⟨⟨1, 1⟩⟩ }

/-- The same session, already Active: it holds a state pair of batch size
one. -/
def sess6 : InferencePredictor :=
  { use_model := ds2online, configs := ⟨⟨1, 1⟩⟩,
    output_state_h := some (np_zeros3 1 1 1), output_state_c := some (np_zeros3 1 1 1) }

/-- A predictor whose `run()` always raises. -/
def failRun : ModelRun := fun _ _ _ => .error .invocation

/-- A predictor whose `run()` always succeeds, with fixed small outputs. -/
def okRun3 : ModelRun := fun _ _ _ => .ok ⟨[[[5]]], [2], [[[7]]], [[[8]]]⟩

/-- A predictor whose `run()` always succeeds with empty outputs. -/
def okRunE : ModelRun := fun _ _ _ => .ok ⟨[], [], [], []⟩

/-- C3: on a streaming session with no held state (fresh or just reset),
`predict_chunk` zero-initializes the state to shape
`(num_rnn_layers, chunk.shape[0], rnn_size)` and feeds exactly that pair to
the model; and whenever the model call succeeds, the session afterwards
holds exactly the state pair the model returned. -/
theorem predict_chunk_state_lifecycle (run : ModelRun) (s : InferencePredictor)
    (chunk : Arr3) (lens : List Int) (hon : s.use_model = ds2online) :
    (s.output_state_h = none →
      chunk_state_input (lazy_init s chunk) =
        some (np_zeros3 s.configs.encoder_conf.num_rnn_layers chunk.length
                s.configs.encoder_conf.rnn_size,
              np_zeros3 s.configs.encoder_conf.num_rnn_layers chunk.length
                s.configs.encoder_conf.rnn_size)) ∧
    (∀ out : RunOut, run chunk lens (chunk_state_input (lazy_init s chunk)) = .ok out →
      (predict_chunk run s chunk lens).1.output_state_h = some out.state_h ∧
      (predict_chunk run s chunk lens).1.output_state_c = some out.state_c) := by
  constructor
  · intro hh
    simp [lazy_init, chunk_state_input, hon, hh]
  · intro out hout
    simp only [predict_chunk]
    rw [hout]
    exact ⟨rfl, rfl⟩

/-- C3, witness: the lifecycle theorem applied to the fresh session
`sess5`, a one-batch chunk and the concrete model `okRun3`. -/
theorem predict_chunk_state_lifecycle_witness :
    chunk_state_input (lazy_init sess5 [[[0]]]) = some (np_zeros3 1 1 1, np_zeros3 1 1 1) ∧
    (predict_chunk okRun3 sess5 [[[0]]] [1]).1.output_state_h = some [[[7]]] ∧
    (predict_chunk okRun3 sess5 [[[0]]] [1]).1.output_state_c = some [[[8]]] := by
  have h := predict_chunk_state_lifecycle okRun3 sess5 [[[0]]] [1] rfl
  exact ⟨h.1 rfl, (h.2 ⟨[[[5]]], [2], [[[7]]], [[[8]]]⟩ rfl).1,
    (h.2 ⟨[[[5]]], [2], [[[7]]], [[[8]]]⟩ rfl).2⟩

/-- C5, counterexample.  The claim says a failed model call leaves the
session exactly as before — in particular a failed *first* chunk leaves it
Idle.  But the zero-initialization is committed to `self` *before*
`self.predictor.run()`: after a failing first chunk on the fresh streaming
session `sess5`, the held state is the zero tensor, not `None`. -/
theorem predict_chunk_failure_counterexample :
    sess5.output_state_h = none ∧
    (predict_chunk failRun sess5 [[[0]]] [1]).1.output_state_h =
      some (np_zeros3 1 1 1) := by decide

/-- C5, amended.  If the model call inside `predict_chunk` fails, the
session is left exactly as the *lazy zero-initialization* left it: the
model's outputs are never partially committed, and a session that was
already Active (state held) is left untouched — but a failed first chunk
of a streaming model leaves the session Active holding the zero state, not
Idle. -/
theorem predict_chunk_failure_state (run : ModelRun) (s : InferencePredictor)
    (chunk : Arr3) (lens : List Int) (e : ModelErr)
    (h : run chunk lens (chunk_state_input (lazy_init s chunk)) = .error e) :
    (predict_chunk run s chunk lens).1 = lazy_init s chunk ∧
    (s.output_state_h ≠ none → (predict_chunk run s chunk lens).1 = s) := by
  have h1 : (predict_chunk run s chunk lens).1 = lazy_init s chunk := by
    simp only [predict_chunk]
    rw [h]
  refine ⟨h1, fun hh => ?_⟩
  rw [h1]
  unfold lazy_init
  rw [if_neg]
  rintro ⟨-, h2⟩
  exact hh h2

/-- C5, witness: a failing call on the already-Active session `sess6`
leaves it exactly as it was. -/
theorem predict_chunk_failure_state_witness :
    (predict_chunk failRun sess6 [[[0]], [[0]]] [1, 1]).1 = sess6 :=
  (predict_chunk_failure_state failRun sess6 [[[0]], [[0]]] [1, 1] .invocation rfl).2
    (by decide)

/-- C6, counterexample.  The claim says a chunk whose batch size differs
from the held state's fails with `StateShapeMismatchError`.  `sess6` holds
state of batch size 1; a chunk of batch size 2 is accepted and the call
returns `.ok` — no error of any kind is raised at the session layer. -/
theorem predict_chunk_batch_mismatch_counterexample :
    ((sess6.output_state_h.getD []).headD []).length = 1 ∧
    ([[[0]], [[0]]] : Arr3).length = 2 ∧
    (predict_chunk okRunE sess6 [[[0]], [[0]]] [1, 1]).2.isOk = true := by decide

/-- C6, amended.  `predict_chunk` performs no batch-size check at all: on
an Active streaming session the held state pair is copied to the model
unchanged — never reshaped or re-initialized to the new chunk's batch size
— and the call's result is exactly the model call's result, so the only
failures are the model's own. -/
theorem predict_chunk_no_batch_check (run : ModelRun) (s : InferencePredictor)
    (chunk : Arr3) (lens : List Int) (sh sc : Arr3)
    (hon : s.use_model = ds2online)
    (hh : s.output_state_h = some sh) (hc : s.output_state_c = some sc) :
    chunk_state_input (lazy_init s chunk) = some (sh, sc) ∧
    (predict_chunk run s chunk lens).2 =
      Except.map (fun out => (out.probs, out.lens)) (run chunk lens (some (sh, sc))) := by
  have hli : lazy_init s chunk = s := by
    unfold lazy_init
    rw [if_neg]
    rintro ⟨-, h2⟩
    rw [hh] at h2
    cases h2
  have hcsi : chunk_state_input s = some (sh, sc) := by
    unfold chunk_state_input
    rw [if_pos hon, hh, hc]
    rfl
  refine ⟨by rw [hli]; exact hcsi, ?_⟩
  simp only [predict_chunk]
  rw [hli, hcsi]
  cases run chunk lens (some (sh, sc)) <;> rfl

/-- C6, witness: on `sess6` (held batch size 1) and a batch-2 chunk, the
held state is fed unchanged and the call returns the model's `.ok`. -/
theorem predict_chunk_no_batch_check_witness :
    chunk_state_input (lazy_init sess6 [[[0]], [[0]]]) =
      some (np_zeros3 1 1 1, np_zeros3 1 1 1) ∧
    (predict_chunk okRunE sess6 [[[0]], [[0]]] [1, 1]).2 = .ok ([], []) := by
  have h := predict_chunk_no_batch_check okRunE sess6 [[[0]], [[0]]] [1, 1]
    (np_zeros3 1 1 1) (np_zeros3 1 1 1) rfl rfl rfl
  exact ⟨h.1, by rw [h.2]; rfl⟩

/-- C8: `reset_stream` is idempotent and unconditional — a second reset
changes nothing, and after a reset from *any* session state both state
fields are `None`. -/
theorem reset_stream_idempotent_clears (s : InferencePredictor) :
    reset_stream (reset_stream s) = reset_stream s ∧
    (reset_stream s).output_state_h = none ∧
    (reset_stream s).output_state_c = none :=
  ⟨rfl, rfl, rfl⟩

/-- C9: `predict` never touches the streaming state fields: whatever the
session held before the call — nothing (Idle) or a state pair (Active) —
it holds afterwards, whether the model call succeeds or fails. -/
theorem predict_no_state_mutation (run : ModelRun) (s : InferencePredictor)
    (speech : Arr3) (speech_lengths : List Int) :
    (predict run s speech speech_lengths).1.output_state_h = s.output_state_h ∧
    (predict run s speech speech_lengths).1.output_state_c = s.output_state_c := by
  have h1 : (predict run s speech speech_lengths).1 = s := by
    simp only [predict]
    split <;> rfl
  rw [h1]
  exact ⟨rfl, rfl⟩
